import Mathlib

/-!
Verification of the TKTM equation-quiz program (src/app.py).

The program has two parts relevant here:
  * `generate_equation_system` — a bounded retry loop (100 attempts) that
    draws random coefficients `a b d e ∈ [-5,5]`, repairs degenerate
    equations by redrawing a single coefficient in an (unbounded) while
    loop, draws a solution `(x_sol, y_sol) ∈ [-10,10]²`, computes the
    constants by substitution and accepts when the determinant is nonzero.
  * the answer-judgment button handler — empty-input check, numeric
    parsing, and a strict `< 1e-9` tolerance comparison against the
    stored solution.

We embed the generator shallowly: the pseudo-random source is a stream
`g : Nat → Nat` of raw draws, and `randint lo hi v` maps a raw draw to a
uniform value of the inclusive range `[lo, hi]`, mirroring Python's
`random.randint`.  The two inner `while` loops of the source are not
structurally bounded, so they are embedded with explicit fuel: a result
of `none` means the loop has not finished within the given fuel, and
non-termination is `none` for every fuel.  The numeric comparisons of
the judgment handler are embedded over `ℚ` (exact arithmetic), with the
parser of the host language abstracted as an oracle `String → Option ℚ`.
-/

/-- A pseudo-random source: an infinite stream of raw natural draws. -/
def RandStream : Type := Nat → Nat

/-- Python's `random.randint lo hi` applied to the raw draw `v`: a value
of the inclusive integer range `[lo, hi]` (for `lo ≤ hi`). -/
def randint (lo hi : Int) (v : Nat) : Int :=
  lo + (v : Int) % (hi - lo + 1)

/-- The value object returned by `generate_equation_system`
(src/app.py lines 40-47). -/
structure EquationSystem where
  eq1_coeffs : Int × Int
  eq1_const : Int
  eq2_coeffs : Int × Int
  eq2_const : Int
  solution_x : Int
  solution_y : Int
deriving DecidableEq, Repr

/-- The degeneracy-repair loop of src/app.py lines 18-19:
`while v == 0 and fixed == 0: v = random.randint(-5, 5)`.
`i` is the position of the next raw draw in the stream; the result is the
final value of the redrawn coefficient together with the next unused
stream position, or `none` when the loop did not exit within `fuel`
iterations. -/
def redrawLoop (g : RandStream) (fixed : Int) : Nat → Int → Nat → Option (Int × Nat)
  | fuel, v, i =>
    if v = 0 ∧ fixed = 0 then
      match fuel with
      | 0 => none
      | Nat.succ fuel => redrawLoop g fixed fuel (randint (-5) 5 (g i)) (i + 1)
    else
      some (v, i)

/-- One iteration of the retry loop of `generate_equation_system`
(src/app.py lines 14-47): draw `a b d e`, repair degeneracy of each
equation, draw the solution, compute the constants, and test the
determinant.  Returns `none` when an inner repair loop did not finish
within `fuel`; otherwise `some (r, i')` where `r` is `some sys` on a
nonzero determinant and `none` when this attempt is rejected, and `i'`
is the next unused stream position. -/
def genOnce (g : RandStream) (fuel i : Nat) : Option (Option EquationSystem × Nat) :=
  let a := randint (-5) 5 (g i)
  let b := randint (-5) 5 (g (i + 1))
  let d := randint (-5) 5 (g (i + 2))
  let e := randint (-5) 5 (g (i + 3))
  match redrawLoop g b fuel a (i + 4) with
  | none => none
  | some (a, i1) =>
    match redrawLoop g d fuel e i1 with
    | none => none
    | some (e, i2) =>
      let x_sol := randint (-10) 10 (g i2)
      let y_sol := randint (-10) 10 (g (i2 + 1))
      let c := a * x_sol + b * y_sol
      let f := d * x_sol + e * y_sol
      let determinant := a * e - b * d
      if determinant ≠ 0 then
        some (some ⟨(a, b), c, (d, e), f, x_sol, y_sol⟩, i2 + 2)
      else
        some (none, i2 + 2)

/-- The retry loop `for _ in range(max_iter)` of src/app.py line 13:
`k` attempts remain, reading the stream from position `i`.  Returns
`none` when an inner repair loop did not finish within `fuel`,
`some none` when the attempts are exhausted (the Python `return None`
of line 51), and `some (some sys)` on success. -/
def genLoop (g : RandStream) (fuel : Nat) : Nat → Nat → Option (Option EquationSystem)
  | 0, _ => some none
  | Nat.succ k, i =>
    match genOnce g fuel i with
    | none => none
    | some (some sys, _) => some (some sys)
    | some (none, i2) => genLoop g fuel k i2

/-- The function `generate_equation_system()` of src/app.py lines 7-51,
with `max_iter = 100`. -/
def generate_equation_system (g : RandStream) (fuel : Nat) :
    Option (Option EquationSystem) :=
  genLoop g fuel 100 0

/-- The tagged outcome stored in `st.session_state.result`
(src/app.py lines 98, 105, 107, 109): a result kind plus the
human-readable message. -/
inductive JudgmentResult where
  | success (message : String)
  | error (message : String)
  | warning (message : String)
deriving DecidableEq, Repr

/-- The tolerance `1e-9` of src/app.py line 104, as an exact rational. -/
def tolerance : ℚ := 1 / 10 ^ 9

/-- The success message of src/app.py line 105:
`f"正解です！ (x={int(...)}, y={int(...)})"`. -/
def successMessage (prob : EquationSystem) : String :=
  "正解です！ (x=" ++ toString prob.solution_x ++
    ", y=" ++ toString prob.solution_y ++ ")"

/-- The 解答を判定 button handler of src/app.py lines 94-109.  The host
language's decimal parser `float` is abstracted as the oracle `parse`
(a `none` result models a `ValueError`); numeric comparison is embedded
over `ℚ`.  `if not user_x_input or not user_y_input` is the emptiness
test on the two raw strings. -/
def judgment (parse : String → Option ℚ) (prob : EquationSystem)
    (user_x_input user_y_input : String) : JudgmentResult :=
  if user_x_input.isEmpty ∨ user_y_input.isEmpty then
    .warning "x と y の両方を入力してください。"
  else
    match parse user_x_input, parse user_y_input with
    | some user_x, some user_y =>
      if |user_x - (prob.solution_x : ℚ)| < tolerance ∧
          |user_y - (prob.solution_y : ℚ)| < tolerance then
        .success (successMessage prob)
      else
        .error "不正解です。もう一度考えてみましょう。"
    | _, _ => .error "数字を正しく入力してください。"

/-! ### Basic properties of the random draws -/

/-- A raw draw always lands in the requested inclusive range. -/
theorem randint_mem (lo hi : Int) (v : Nat) (h : lo ≤ hi) :
    lo ≤ randint lo hi v ∧ randint lo hi v ≤ hi := by
  unfold randint
  have hne : hi - lo + 1 ≠ 0 := by omega
  have h1 := Int.emod_nonneg (v : Int) hne
  have h2 := Int.emod_lt_of_pos (v : Int) (show (0:Int) < hi - lo + 1 by omega)
  omega

/-- Coefficient draws land in `[-5, 5]`. -/
theorem randint_coeff_mem (v : Nat) :
    -5 ≤ randint (-5) 5 v ∧ randint (-5) 5 v ≤ 5 :=
  randint_mem (-5) 5 v (by norm_num)

/-- Solution draws land in `[-10, 10]`. -/
theorem randint_sol_mem (v : Nat) :
    -10 ≤ randint (-10) 10 v ∧ randint (-10) 10 v ≤ 10 :=
  randint_mem (-10) 10 v (by norm_num)

/-! ### The degeneracy-repair loop -/

/-- When the loop guard is already false the repair loop exits at once,
whatever the fuel. -/
theorem redrawLoop_exit (g : RandStream) (fixed : Int) (fuel : Nat) (v : Int)
    (i : Nat) (h : ¬(v = 0 ∧ fixed = 0)) :
    redrawLoop g fixed fuel v i = some (v, i) := by
  unfold redrawLoop
  rw [if_neg h]

/-- A successful exit of the repair loop never has both the redrawn value
and the fixed partner equal to zero. -/
theorem redrawLoop_sound (g : RandStream) (fixed : Int) :
    ∀ fuel v i v' i', redrawLoop g fixed fuel v i = some (v', i') →
      ¬(v' = 0 ∧ fixed = 0) := by
  intro fuel
  induction fuel with
  | zero =>
    intro v i v' i' h
    unfold redrawLoop at h
    split at h
    · exact absurd h (by simp)
    · next hc =>
      simp only [Option.some.injEq, Prod.mk.injEq] at h
      obtain ⟨rfl, rfl⟩ := h
      exact hc
  | succ fuel ih =>
    intro v i v' i' h
    unfold redrawLoop at h
    split at h
    · exact ih _ _ _ _ h
    · next hc =>
      simp only [Option.some.injEq, Prod.mk.injEq] at h
      obtain ⟨rfl, rfl⟩ := h
      exact hc

/-- The repair loop keeps the redrawn coefficient in `[-5, 5]`. -/
theorem redrawLoop_mem (g : RandStream) (fixed : Int) :
    ∀ fuel v i v' i', redrawLoop g fixed fuel v i = some (v', i') →
      -5 ≤ v → v ≤ 5 → -5 ≤ v' ∧ v' ≤ 5 := by
  intro fuel
  induction fuel with
  | zero =>
    intro v i v' i' h hlo hhi
    unfold redrawLoop at h
    split at h
    · exact absurd h (by simp)
    · simp only [Option.some.injEq, Prod.mk.injEq] at h
      obtain ⟨rfl, rfl⟩ := h
      exact ⟨hlo, hhi⟩
  | succ fuel ih =>
    intro v i v' i' h hlo hhi
    unfold redrawLoop at h
    split at h
    · exact ih _ _ _ _ h (randint_coeff_mem (g i)).1 (randint_coeff_mem (g i)).2
    · simp only [Option.some.injEq, Prod.mk.injEq] at h
      obtain ⟨rfl, rfl⟩ := h
      exact ⟨hlo, hhi⟩

/-! ### Invariants of every returned system -/

/-- All invariants established by a single accepted attempt: the stored
solution satisfies both equations, the determinant is nonzero, neither
equation is degenerate, and all values are in their draw ranges. -/
def ValidSystem (sys : EquationSystem) : Prop :=
  sys.eq1_coeffs.1 * sys.solution_x + sys.eq1_coeffs.2 * sys.solution_y = sys.eq1_const ∧
  sys.eq2_coeffs.1 * sys.solution_x + sys.eq2_coeffs.2 * sys.solution_y = sys.eq2_const ∧
  sys.eq1_coeffs.1 * sys.eq2_coeffs.2 - sys.eq1_coeffs.2 * sys.eq2_coeffs.1 ≠ 0 ∧
  ¬(sys.eq1_coeffs.1 = 0 ∧ sys.eq1_coeffs.2 = 0) ∧
  ¬(sys.eq2_coeffs.1 = 0 ∧ sys.eq2_coeffs.2 = 0) ∧
  (-5 ≤ sys.eq1_coeffs.1 ∧ sys.eq1_coeffs.1 ≤ 5) ∧
  (-5 ≤ sys.eq1_coeffs.2 ∧ sys.eq1_coeffs.2 ≤ 5) ∧
  (-5 ≤ sys.eq2_coeffs.1 ∧ sys.eq2_coeffs.1 ≤ 5) ∧
  (-5 ≤ sys.eq2_coeffs.2 ∧ sys.eq2_coeffs.2 ≤ 5) ∧
  (-10 ≤ sys.solution_x ∧ sys.solution_x ≤ 10) ∧
  (-10 ≤ sys.solution_y ∧ sys.solution_y ≤ 10)

/-- Any system produced by a single accepted attempt is valid. -/
theorem genOnce_sound (g : RandStream) (fuel i : Nat) (sys : EquationSystem)
    (i' : Nat) (h : genOnce g fuel i = some (some sys, i')) : ValidSystem sys := by
  unfold genOnce at h
  dsimp only at h
  split at h
  · exact absurd h (by simp)
  next a i1 h1 =>
  split at h
  · exact absurd h (by simp)
  next e i2 h2 =>
  split at h
  · next hdet =>
    simp only [Option.some.injEq, Prod.mk.injEq] at h
    obtain ⟨rfl, rfl⟩ := h
    have hb := randint_coeff_mem (g (i + 1))
    have hd := randint_coeff_mem (g (i + 2))
    have ha := redrawLoop_mem g _ fuel _ _ a i1 h1
      (randint_coeff_mem (g i)).1 (randint_coeff_mem (g i)).2
    have he := redrawLoop_mem g _ fuel _ _ e i2 h2
      (randint_coeff_mem (g (i + 3))).1 (randint_coeff_mem (g (i + 3))).2
    have hnd1 := redrawLoop_sound g _ fuel _ _ a i1 h1
    have hnd2 := redrawLoop_sound g _ fuel _ _ e i2 h2
    have hx := randint_sol_mem (g i2)
    have hy := randint_sol_mem (g (i2 + 1))
    refine ⟨rfl, rfl, hdet, ?_, ?_, ha, hb, hd, he, hx, hy⟩
    · exact hnd1
    · intro hc
      exact hnd2 ⟨hc.2, hc.1⟩
  · exact absurd h (by simp)

/-- Any system produced by the retry loop is valid. -/
theorem genLoop_sound (g : RandStream) (fuel : Nat) :
    ∀ k i sys, genLoop g fuel k i = some (some sys) → ValidSystem sys := by
  intro k
  induction k with
  | zero =>
    intro i sys h
    unfold genLoop at h
    exact absurd h (by simp)
  | succ k ih =>
    intro i sys h
    unfold genLoop at h
    split at h
    · exact absurd h (by simp)
    · next sys2 i2 hg =>
      simp only [Option.some.injEq] at h
      subst h
      exact genOnce_sound g fuel i _ i2 hg
    · next i2 hg => exact ih i2 sys h

/-- Any system produced by `generate_equation_system` is valid. -/
theorem generate_sound (g : RandStream) (fuel : Nat) (sys : EquationSystem)
    (h : generate_equation_system g fuel = some (some sys)) : ValidSystem sys :=
  genLoop_sound g fuel 100 0 sys h

/-- A 2×2 integer system with nonzero determinant has at most one integer
solution. -/
theorem unique_solution (a b c d e f x0 y0 : Int)
    (h1 : a * x0 + b * y0 = c) (h2 : d * x0 + e * y0 = f)
    (hdet : a * e - b * d ≠ 0) (x y : Int)
    (hx : a * x + b * y = c) (hy : d * x + e * y = f) :
    x = x0 ∧ y = y0 := by
  have hxe : (a * e - b * d) * (x - x0) =
      e * ((a * x + b * y) - (a * x0 + b * y0)) -
        b * ((d * x + e * y) - (d * x0 + e * y0)) := by ring
  have hye : (a * e - b * d) * (y - y0) =
      a * ((d * x + e * y) - (d * x0 + e * y0)) -
        d * ((a * x + b * y) - (a * x0 + b * y0)) := by ring
  rw [h1, h2, hx, hy] at hxe hye
  simp only [sub_self, mul_zero, zero_sub, neg_eq_zero, sub_zero] at hxe hye
  constructor
  · have := mul_eq_zero.mp hxe
    omega
  · have := mul_eq_zero.mp hye
    omega

/-! ### Concrete random streams used as witnesses -/

/-- A stream whose first attempt draws `a=1, b=0, d=0, e=1`,
`x_sol = y_sol = 0` (determinant 1): generation succeeds at once. -/
def gW : RandStream := fun i =>
  if i = 0 then 6 else if i = 3 then 6 else if i ≤ 3 then 5 else 10

/-- The system `generate_equation_system` produces from `gW`. -/
def sysW : EquationSystem := ⟨(1, 0), 0, (0, 1), 0, 0, 0⟩

/-- A stream every draw of which maps to the coefficient 1: each attempt
yields `a=b=d=e=1`, determinant `1*1 - 1*1 = 0`, so every attempt is
rejected and the retry cap is exhausted. -/
def gSix : RandStream := fun _ => 6

/-- A stream every draw of which maps to the coefficient 0: the first
attempt draws `a=b=0` and the degeneracy-repair loop redraws 0 forever. -/
def gZero : RandStream := fun _ => 5

/-! ### Claim theorems -/

/-- C1: for every `EquationSystem` returned by
`generate_equation_system()`, the stored solution satisfies both
equations exactly in integer arithmetic:
`eq1_coeffs.1 * solution_x + eq1_coeffs.2 * solution_y = eq1_const` and
`eq2_coeffs.1 * solution_x + eq2_coeffs.2 * solution_y = eq2_const`. -/
theorem C1_solution_satisfies_equations (g : RandStream) (fuel : Nat)
    (sys : EquationSystem)
    (h : generate_equation_system g fuel = some (some sys)) :
    sys.eq1_coeffs.1 * sys.solution_x + sys.eq1_coeffs.2 * sys.solution_y =
        sys.eq1_const ∧
    sys.eq2_coeffs.1 * sys.solution_x + sys.eq2_coeffs.2 * sys.solution_y =
        sys.eq2_const :=
  ⟨(generate_sound g fuel sys h).1, (generate_sound g fuel sys h).2.1⟩

/-- Witness for C1 at the concrete stream `gW`. -/
theorem C1_witness :
    sysW.eq1_coeffs.1 * sysW.solution_x + sysW.eq1_coeffs.2 * sysW.solution_y =
        sysW.eq1_const ∧
    sysW.eq2_coeffs.1 * sysW.solution_x + sysW.eq2_coeffs.2 * sysW.solution_y =
        sysW.eq2_const :=
  C1_solution_satisfies_equations gW 1 sysW (by decide)

/-- C2: for every `EquationSystem` returned by
`generate_equation_system()`, the determinant `a*e - b*d` of its
coefficients is nonzero, so the system has exactly one (integer)
solution, namely the stored one. -/
theorem C2_determinant_nonzero (g : RandStream) (fuel : Nat)
    (sys : EquationSystem)
    (h : generate_equation_system g fuel = some (some sys)) :
    sys.eq1_coeffs.1 * sys.eq2_coeffs.2 - sys.eq1_coeffs.2 * sys.eq2_coeffs.1 ≠ 0 ∧
    ∀ x y : Int,
      sys.eq1_coeffs.1 * x + sys.eq1_coeffs.2 * y = sys.eq1_const →
      sys.eq2_coeffs.1 * x + sys.eq2_coeffs.2 * y = sys.eq2_const →
      x = sys.solution_x ∧ y = sys.solution_y := by
  obtain ⟨h1, h2, hdet, -⟩ := generate_sound g fuel sys h
  exact ⟨hdet, fun x y hx hy =>
    unique_solution _ _ _ _ _ _ _ _ h1 h2 hdet x y hx hy⟩

/-- Witness for C2 at the concrete stream `gW`. -/
theorem C2_witness :
    sysW.eq1_coeffs.1 * sysW.eq2_coeffs.2 -
      sysW.eq1_coeffs.2 * sysW.eq2_coeffs.1 ≠ 0 :=
  (C2_determinant_nonzero gW 1 sysW (by decide)).1

/-- C6: for every `EquationSystem` returned by
`generate_equation_system()`, neither equation is degenerate:
not both `a = 0` and `b = 0`, and not both `d = 0` and `e = 0`. -/
theorem C6_equations_nondegenerate (g : RandStream) (fuel : Nat)
    (sys : EquationSystem)
    (h : generate_equation_system g fuel = some (some sys)) :
    ¬(sys.eq1_coeffs.1 = 0 ∧ sys.eq1_coeffs.2 = 0) ∧
    ¬(sys.eq2_coeffs.1 = 0 ∧ sys.eq2_coeffs.2 = 0) := by
  obtain ⟨-, -, -, h1, h2, -⟩ := generate_sound g fuel sys h
  exact ⟨h1, h2⟩

/-- Witness for C6 at the concrete stream `gW`. -/
theorem C6_witness :
    ¬(sysW.eq1_coeffs.1 = 0 ∧ sysW.eq1_coeffs.2 = 0) ∧
    ¬(sysW.eq2_coeffs.1 = 0 ∧ sysW.eq2_coeffs.2 = 0) :=
  C6_equations_nondegenerate gW 1 sysW (by decide)

/-- C7: for every `EquationSystem` returned by
`generate_equation_system()`, every coefficient (including redrawn ones)
lies in `[-5, 5]` and both solution components lie in `[-10, 10]`. -/
theorem C7_range_bounds (g : RandStream) (fuel : Nat)
    (sys : EquationSystem)
    (h : generate_equation_system g fuel = some (some sys)) :
    (-5 ≤ sys.eq1_coeffs.1 ∧ sys.eq1_coeffs.1 ≤ 5) ∧
    (-5 ≤ sys.eq1_coeffs.2 ∧ sys.eq1_coeffs.2 ≤ 5) ∧
    (-5 ≤ sys.eq2_coeffs.1 ∧ sys.eq2_coeffs.1 ≤ 5) ∧
    (-5 ≤ sys.eq2_coeffs.2 ∧ sys.eq2_coeffs.2 ≤ 5) ∧
    (-10 ≤ sys.solution_x ∧ sys.solution_x ≤ 10) ∧
    (-10 ≤ sys.solution_y ∧ sys.solution_y ≤ 10) := by
  obtain ⟨-, -, -, -, -, hs⟩ := generate_sound g fuel sys h
  exact hs

/-- Witness for C7 at the concrete stream `gW`. -/
theorem C7_witness :
    (-5 ≤ sysW.eq1_coeffs.1 ∧ sysW.eq1_coeffs.1 ≤ 5) ∧
    (-5 ≤ sysW.eq1_coeffs.2 ∧ sysW.eq1_coeffs.2 ≤ 5) ∧
    (-5 ≤ sysW.eq2_coeffs.1 ∧ sysW.eq2_coeffs.1 ≤ 5) ∧
    (-5 ≤ sysW.eq2_coeffs.2 ∧ sysW.eq2_coeffs.2 ≤ 5) ∧
    (-10 ≤ sysW.solution_x ∧ sysW.solution_x ≤ 10) ∧
    (-10 ≤ sysW.solution_y ∧ sysW.solution_y ≤ 10) :=
  C7_range_bounds gW 1 sysW (by decide)

/-! ### Behaviour on the exhausting stream `gSix` -/

/-- On `gSix` every attempt is completed and rejected (determinant 0),
consuming six draws. -/
theorem genOnce_gSix (fuel i : Nat) : genOnce gSix fuel i = some (none, i + 6) := by
  have h1 : randint (-5) 5 6 = 1 := by decide
  unfold genOnce gSix
  dsimp only
  rw [h1]
  rw [redrawLoop_exit _ _ fuel 1 (i + 4) (by norm_num)]
  dsimp only
  rw [redrawLoop_exit _ _ fuel 1 (i + 4) (by norm_num)]
  norm_num

/-- On `gSix` the retry loop always exhausts its attempts. -/
theorem genLoop_gSix (fuel : Nat) : ∀ k i, genLoop gSix fuel k i = some none := by
  intro k
  induction k with
  | zero => intro i; rfl
  | succ k ih =>
    intro i
    unfold genLoop
    rw [genOnce_gSix]
    exact ih (i + 6)

/-! ### Behaviour on the diverging stream `gZero` -/

/-- On `gZero` the repair loop never exits, whatever the fuel. -/
theorem redrawLoop_gZero (fuel : Nat) : ∀ i, redrawLoop gZero 0 fuel 0 i = none := by
  induction fuel with
  | zero => intro i; rfl
  | succ fuel ih =>
    intro i
    unfold redrawLoop
    rw [if_pos ⟨rfl, rfl⟩]
    have h0 : randint (-5) 5 (gZero i) = 0 := by
      show randint (-5) 5 5 = 0
      decide
    rw [h0]
    exact ih (i + 1)

/-- On `gZero` no attempt ever completes. -/
theorem genOnce_gZero (fuel i : Nat) : genOnce gZero fuel i = none := by
  have ha : randint (-5) 5 (gZero i) = 0 := by
    show randint (-5) 5 5 = 0
    decide
  have hb : randint (-5) 5 (gZero (i + 1)) = 0 := by
    show randint (-5) 5 5 = 0
    decide
  unfold genOnce
  dsimp only
  rw [ha, hb, redrawLoop_gZero fuel (i + 4)]

/-- On `gZero` the whole retry loop diverges. -/
theorem genLoop_gZero (fuel k i : Nat) : genLoop gZero fuel (k + 1) i = none := by
  unfold genLoop
  rw [genOnce_gZero]

/-! ### Fuel monotonicity -/

/-- A repair-loop result is stable under extra fuel. -/
theorem redrawLoop_mono (g : RandStream) (fixed : Int) :
    ∀ fuel v i r, redrawLoop g fixed fuel v i = some r →
      ∀ fuel', fuel ≤ fuel' → redrawLoop g fixed fuel' v i = some r := by
  intro fuel
  induction fuel with
  | zero =>
    intro v i r h fuel' _
    unfold redrawLoop at h
    split at h
    · exact absurd h (by simp)
    · next hc =>
      rw [redrawLoop_exit g fixed fuel' v i hc]
      exact h
  | succ fuel ih =>
    intro v i r h fuel' hle
    unfold redrawLoop at h
    split at h
    · next hc =>
      obtain ⟨fuel'', rfl⟩ : ∃ m, fuel' = m + 1 := ⟨fuel' - 1, by omega⟩
      have h' := ih _ _ _ h fuel'' (by omega)
      unfold redrawLoop
      rw [if_pos hc]
      exact h'
    · next hc =>
      rw [redrawLoop_exit g fixed fuel' v i hc]
      exact h

/-- An attempt's result is stable under extra fuel. -/
theorem genOnce_mono (g : RandStream) (fuel i : Nat) (p : Option EquationSystem × Nat)
    (h : genOnce g fuel i = some p) (fuel' : Nat) (hle : fuel ≤ fuel') :
    genOnce g fuel' i = some p := by
  unfold genOnce at h ⊢
  dsimp only at h ⊢
  split at h
  · exact absurd h (by simp)
  · next a i1 h1 =>
    rw [redrawLoop_mono g _ fuel _ _ _ h1 fuel' hle]
    dsimp only
    split at h
    · exact absurd h (by simp)
    · next e i2 h2 =>
      rw [redrawLoop_mono g _ fuel _ _ _ h2 fuel' hle]
      exact h

/-- A retry-loop result is stable under extra fuel. -/
theorem genLoop_mono (g : RandStream) :
    ∀ k fuel i r, genLoop g fuel k i = some r →
      ∀ fuel', fuel ≤ fuel' → genLoop g fuel' k i = some r := by
  intro k
  induction k with
  | zero => intro fuel i r h fuel' _; exact h
  | succ k ih =>
    intro fuel i r h fuel' hle
    unfold genLoop at h ⊢
    split at h
    · exact absurd h (by simp)
    · next sys i2 hg =>
      rw [genOnce_mono g fuel i _ hg fuel' hle]
      exact h
    · next i2 hg =>
      rw [genOnce_mono g fuel i _ hg fuel' hle]
      exact ih fuel i2 r h fuel' hle

/-! ### Termination under a live random source -/

/-- A live random source: past every position there is a draw that maps
to a nonzero coefficient. -/
def DrawsNonzero (g : RandStream) : Prop :=
  ∀ i, ∃ j, i ≤ j ∧ randint (-5) 5 (g j) ≠ 0

/-- If the draw `n` positions ahead maps to a nonzero coefficient, the
repair loop exits with some finite fuel. -/
theorem redrawLoop_term (g : RandStream) (fixed : Int) :
    ∀ n i v, randint (-5) 5 (g (i + n)) ≠ 0 →
      ∃ fuel r, redrawLoop g fixed fuel v i = some r := by
  intro n
  induction n with
  | zero =>
    intro i v hnz
    by_cases hc : v = 0 ∧ fixed = 0
    · refine ⟨1, (randint (-5) 5 (g i), i + 1), ?_⟩
      unfold redrawLoop
      rw [if_pos hc]
      exact redrawLoop_exit g fixed 0 _ (i + 1) (fun hh => hnz hh.1)
    · exact ⟨0, (v, i), redrawLoop_exit g fixed 0 v i hc⟩
  | succ n ih =>
    intro i v hnz
    by_cases hc : v = 0 ∧ fixed = 0
    · have hnz' : randint (-5) 5 (g (i + 1 + n)) ≠ 0 := by
        rw [show i + 1 + n = i + (n + 1) by omega]
        exact hnz
      obtain ⟨fuel, r, hr⟩ := ih (i + 1) (randint (-5) 5 (g i)) hnz'
      refine ⟨fuel + 1, r, ?_⟩
      unfold redrawLoop
      rw [if_pos hc]
      exact hr
    · exact ⟨0, (v, i), redrawLoop_exit g fixed 0 v i hc⟩

/-- Under a live source every repair loop exits with some finite fuel. -/
theorem redrawLoop_term_of (g : RandStream) (hg : DrawsNonzero g)
    (fixed v : Int) (i : Nat) :
    ∃ fuel r, redrawLoop g fixed fuel v i = some r := by
  obtain ⟨j, hij, hnz⟩ := hg i
  refine redrawLoop_term g fixed (j - i) i v ?_
  rw [show i + (j - i) = j by omega]
  exact hnz

/-- Under a live source every attempt completes with some finite fuel. -/
theorem genOnce_term (g : RandStream) (hg : DrawsNonzero g) (i : Nat) :
    ∃ fuel p, genOnce g fuel i = some p := by
  obtain ⟨f1, ⟨a, i1⟩, h1⟩ := redrawLoop_term_of g hg
    (randint (-5) 5 (g (i + 1))) (randint (-5) 5 (g i)) (i + 4)
  obtain ⟨f2, ⟨e, i2⟩, h2⟩ := redrawLoop_term_of g hg
    (randint (-5) 5 (g (i + 2))) (randint (-5) 5 (g (i + 3))) i1
  have h1' := redrawLoop_mono g _ f1 _ _ _ h1 (max f1 f2) (Nat.le_max_left f1 f2)
  have h2' := redrawLoop_mono g _ f2 _ _ _ h2 (max f1 f2) (Nat.le_max_right f1 f2)
  refine ⟨max f1 f2, ?_⟩
  rw [← Option.isSome_iff_exists]
  unfold genOnce
  dsimp only
  rw [h1']
  dsimp only
  rw [h2']
  dsimp only
  split <;> rfl

/-- Under a live source the retry loop completes with some finite fuel. -/
theorem genLoop_term (g : RandStream) (hg : DrawsNonzero g) :
    ∀ k i, ∃ fuel r, genLoop g fuel k i = some r := by
  intro k
  induction k with
  | zero => intro i; exact ⟨0, none, rfl⟩
  | succ k ih =>
    intro i
    obtain ⟨f1, ⟨r1, i2⟩, hp⟩ := genOnce_term g hg i
    cases r1 with
    | some sys =>
      refine ⟨f1, some sys, ?_⟩
      unfold genLoop
      rw [hp]
    | none =>
      obtain ⟨f2, r, hr⟩ := ih i2
      refine ⟨max f1 f2, r, ?_⟩
      unfold genLoop
      rw [genOnce_mono g f1 i _ hp (max f1 f2) (Nat.le_max_left f1 f2)]
      exact genLoop_mono g k f2 i2 r hr (max f1 f2) (Nat.le_max_right f1 f2)

/-- C3 counterexample: the claim quantifies over every possible sequence
of random values, but on the stream `gZero` — every draw maps to the
coefficient 0 — the degeneracy-repair `while` loop of src/app.py line 18
redraws 0 forever, so the call never returns: its fuel semantics is
`none` for every fuel. -/
theorem C3_counterexample :
    ¬ ∃ fuel r, generate_equation_system gZero fuel = some r := by
  rintro ⟨fuel, r, hr⟩
  have : generate_equation_system gZero fuel = none := genLoop_gZero fuel 99 0
  rw [this] at hr
  exact Option.noConfusion hr

/-- C3 (amended): `generate_equation_system()` returns — a success or
the explicit failure value, within the 100-attempt retry cap — for every
random sequence that keeps producing draws mapping to a nonzero
coefficient; the inner repair loop, and hence the call, can run
unboundedly only on a source that from some point on yields nothing but
zero draws. -/
theorem C3_terminates_on_live_source (g : RandStream) (hg : DrawsNonzero g) :
    ∃ fuel r, generate_equation_system g fuel = some r :=
  genLoop_term g hg 100 0

/-- Witness for C3 at the concrete stream `gSix`. -/
theorem C3_witness :
    ∃ fuel r, generate_equation_system gSix fuel = some r :=
  C3_terminates_on_live_source gSix
    (fun i => ⟨i, Nat.le_refl i, by show randint (-5) 5 6 ≠ 0; decide⟩)

/-- C5: when the retry cap is exhausted — in particular whenever every
completed attempt is rejected for zero determinant — the call returns
the failure value (Python `None`), never a degenerate system; and the
failure branch is actually reached, e.g. by the stream `gSix`, on which
every attempt draws `a=b=d=e=1` (determinant `1*1 - 1*1 = 0`). -/
theorem C5_exhaustion_returns_failure :
    (∀ g fuel, (∀ f i r i', genOnce g f i = some (r, i') → r = none) →
      ∀ sys, generate_equation_system g fuel ≠ some (some sys)) ∧
    (∀ fuel, generate_equation_system gSix fuel = some none) := by
  constructor
  · intro g fuel hz sys hsys
    suffices hk : ∀ k i, genLoop g fuel k i ≠ some (some sys) from hk 100 0 hsys
    intro k
    induction k with
    | zero => intro i h; exact Option.noConfusion (Option.some.inj h)
    | succ k ih =>
      intro i h
      unfold genLoop at h
      split at h
      · exact Option.noConfusion h
      · next sys2 i2 hg =>
        exact Option.noConfusion (hz fuel i _ i2 hg)
      · next i2 hg => exact ih i2 h
  · intro fuel
    exact genLoop_gSix fuel 100 0

/-- Witness for C5: the failure branch is reached on `gSix`. -/
theorem C5_witness : generate_equation_system gSix 1 = some none :=
  C5_exhaustion_returns_failure.2 1

/-! ### The judgment handler -/

/-- A string the parser accepts is not empty (Python's `float("")`
raises `ValueError`). -/
theorem parse_ne_empty (parse : String → Option ℚ) (s : String) (x : ℚ)
    (hparse : parse "" = none) (hs : parse s = some x) : s.isEmpty = false := by
  cases hb : s.isEmpty with
  | false => rfl
  | true =>
    rw [(String.isEmpty_iff s).mp hb, hparse] at hs
    exact Option.noConfusion hs

/-- On two non-empty, successfully parsed inputs the handler reduces to
the tolerance comparison of src/app.py line 104. -/
theorem judgment_parsed (parse : String → Option ℚ) (prob : EquationSystem)
    (ux uy : String) (x y : ℚ)
    (hxe : ux.isEmpty = false) (hye : uy.isEmpty = false)
    (hx : parse ux = some x) (hy : parse uy = some y) :
    judgment parse prob ux uy =
      if |x - (prob.solution_x : ℚ)| < tolerance ∧
          |y - (prob.solution_y : ℚ)| < tolerance then
        .success (successMessage prob)
      else
        .error "不正解です。もう一度考えてみましょう。" := by
  unfold judgment
  rw [if_neg (by simp [hxe, hye]), hx, hy]

/-- C4: for every stored problem and every pair of input strings that
both parse as numbers, the judgment returns `success` (with the message
embedding the integer solution) iff both parsed candidates are within
tolerance `1e-9` of `solution_x` and `solution_y`; otherwise it returns
`error` with the generic incorrect message. -/
theorem C4_judgment_tolerance (parse : String → Option ℚ)
    (prob : EquationSystem) (ux uy : String) (x y : ℚ)
    (hparse : parse "" = none)
    (hx : parse ux = some x) (hy : parse uy = some y) :
    (judgment parse prob ux uy = .success (successMessage prob) ↔
      (|x - (prob.solution_x : ℚ)| < tolerance ∧
        |y - (prob.solution_y : ℚ)| < tolerance)) ∧
    (¬(|x - (prob.solution_x : ℚ)| < tolerance ∧
        |y - (prob.solution_y : ℚ)| < tolerance) →
      judgment parse prob ux uy = .error "不正解です。もう一度考えてみましょう。") := by
  have hxe := parse_ne_empty parse ux x hparse hx
  have hye := parse_ne_empty parse uy y hparse hy
  rw [judgment_parsed parse prob ux uy x y hxe hye hx hy]
  by_cases hc : |x - (prob.solution_x : ℚ)| < tolerance ∧
      |y - (prob.solution_y : ℚ)| < tolerance
  · rw [if_pos hc]
    exact ⟨⟨fun _ => hc, fun _ => rfl⟩, fun hn => absurd hc hn⟩
  · rw [if_neg hc]
    exact ⟨⟨fun hcontra => JudgmentResult.noConfusion hcontra,
      fun hcc => absurd hcc hc⟩, fun _ => rfl⟩

/-- C8: with at least one empty input string the handler warns before
any parsing is attempted. -/
theorem C8_empty_input_warning (parse : String → Option ℚ)
    (prob : EquationSystem) (ux uy : String)
    (h : ux.isEmpty ∨ uy.isEmpty) :
    judgment parse prob ux uy = .warning "x と y の両方を入力してください。" := by
  unfold judgment
  rw [if_pos h]

/-- C9: with both inputs non-empty and at least one failing to parse,
the handler reports the parse error and nothing else. -/
theorem C9_parse_failure_error (parse : String → Option ℚ)
    (prob : EquationSystem) (ux uy : String)
    (hxe : ux.isEmpty = false) (hye : uy.isEmpty = false)
    (h : parse ux = none ∨ parse uy = none) :
    judgment parse prob ux uy = .error "数字を正しく入力してください。" := by
  unfold judgment
  rw [if_neg (by simp [hxe, hye])]
  rcases h with h | h
  · rcases huy : parse uy with _ | yv <;> rw [h]
  · rcases hux : parse ux with _ | xv <;> rw [h]

/-- C10: the tolerance comparison of src/app.py line 104 is strict: a
parsed candidate whose distance to its solution component is exactly
`1e-9` is outside tolerance, so the result is the generic incorrect
`error`, not `success`. -/
theorem C10_boundary_is_error (parse : String → Option ℚ)
    (prob : EquationSystem) (ux uy : String) (x y : ℚ)
    (hparse : parse "" = none)
    (hx : parse ux = some x) (hy : parse uy = some y)
    (hexact : |x - (prob.solution_x : ℚ)| = tolerance ∨
      |y - (prob.solution_y : ℚ)| = tolerance) :
    judgment parse prob ux uy = .error "不正解です。もう一度考えてみましょう。" := by
  have hxe := parse_ne_empty parse ux x hparse hx
  have hye := parse_ne_empty parse uy y hparse hy
  rw [judgment_parsed parse prob ux uy x y hxe hye hx hy]
  refine if_neg fun hc => ?_
  rcases hexact with he | he
  · exact absurd hc.1 (by rw [he]; exact lt_irrefl tolerance)
  · exact absurd hc.2 (by rw [he]; exact lt_irrefl tolerance)

/-! ### Witness inputs for the judgment claims -/

/-- A concrete parse oracle agreeing with Python's `float` on the five
strings the witnesses use. -/
def parseW : String → Option ℚ := fun s =>
  if s = "4" then some 4
  else if s = "1" then some 1
  else if s = "5" then some 5
  else if s = "4.000000001" then some (4 + 1 / 10 ^ 9)
  else none

/-- The scenario problem of the spec: `2x + 3y = 11`, `x - y = 3`,
solution `(4, 1)`. -/
def probW : EquationSystem := ⟨(2, 3), 11, (1, -1), 3, 4, 1⟩

/-- Witness for C4 with the correct answer `(4, 1)` of `probW`. -/
theorem C4_witness :
    (judgment parseW probW "4" "1" = .success (successMessage probW) ↔
      (|(4 : ℚ) - (probW.solution_x : ℚ)| < tolerance ∧
        |(1 : ℚ) - (probW.solution_y : ℚ)| < tolerance)) ∧
    (¬(|(4 : ℚ) - (probW.solution_x : ℚ)| < tolerance ∧
        |(1 : ℚ) - (probW.solution_y : ℚ)| < tolerance) →
      judgment parseW probW "4" "1" =
        .error "不正解です。もう一度考えてみましょう。") :=
  C4_judgment_tolerance parseW probW "4" "1" 4 1 rfl rfl rfl

/-- Witness for C8 at `x = ""`, `y = "5"`. -/
theorem C8_witness :
    judgment parseW probW "" "5" = .warning "x と y の両方を入力してください。" :=
  C8_empty_input_warning parseW probW "" "5" (Or.inl (by decide))

/-- Witness for C9 at `x = "abc"`, `y = "3"`. -/
theorem C9_witness :
    judgment parseW probW "abc" "3" = .error "数字を正しく入力してください。" :=
  C9_parse_failure_error parseW probW "abc" "3" (by decide) (by decide)
    (Or.inl rfl)

/-- Witness for C10 at `x = "4.000000001"` against `solution_x = 4`:
the distance is exactly `1e-9`. -/
theorem C10_witness :
    judgment parseW probW "4.000000001" "1" =
      .error "不正解です。もう一度考えてみましょう。" :=
  C10_boundary_is_error parseW probW "4.000000001" "1" (4 + 1 / 10 ^ 9) 1
    rfl rfl rfl
    (Or.inl (by norm_num [probW, tolerance]))
